import Mathlib

/-!
Shallow embedding of the CRM_API authorization core (role-based access
control over User and Role CRUD, plus the SuperAdmin bootstrap endpoint).
Each definition mirrors one Python function of the repository:

* `UserService.*`   — app/users/services.py
* `RoleService.*`   — app/roles/services.py
* `UsersRouter.*`   — app/users/router.py
* `RolesRouter.*`   — app/roles/router.py
* `SuperAdminRouter.*` — app/super_admin/router.py
* `role_required`   — app/dependencies/permissions.py

The SQLAlchemy session is modelled as an explicit `DB` value holding the
role and user tables; queries (`filter(...).first()`) become `List.find?`,
row insertion appends, and auto-increment primary keys are drawn from
`next_role_id` / `next_user_id` counters.  `HTTPException(status, detail)`
becomes the error side of `Except HError`.  Password hashing is an
external collaborator in the source (bcrypt); it is modelled as an
injective opaque function on strings.
-/

/-- A row of the `roles` table (app/roles/models.py). -/
structure Role where
  id : Nat
  name : String
  description : Option String
deriving Repr, DecidableEq

/-- A row of the `users` table (app/users/models.py);
`role_id` is the foreign key into `roles`. -/
structure User where
  id : Nat
  email : String
  name : String
  hashed_password : String
  role_id : Nat
deriving Repr, DecidableEq

/-- The database state: both tables plus the auto-increment counters. -/
structure DB where
  roles : List Role
  users : List User
  next_role_id : Nat
  next_user_id : Nat
deriving Repr, DecidableEq

/-- `HTTPException(status_code, detail)` as a value. -/
structure HError where
  status : Nat
  detail : String
deriving Repr, DecidableEq

/-- `db.query(Role).filter(Role.id == rid).first()` -/
def findRoleById (db : DB) (rid : Nat) : Option Role :=
  db.roles.find? (fun r => r.id = rid)

/-- `db.query(Role).filter(Role.name == n).first()` -/
def findRoleByName (db : DB) (n : String) : Option Role :=
  db.roles.find? (fun r => r.name = n)

/-- `db.query(User).filter(User.id == uid).first()` -/
def findUserById (db : DB) (uid : Nat) : Option User :=
  db.users.find? (fun u => u.id = uid)

/-- `db.query(User).filter(User.email == e).first()` -/
def findUserByEmail (db : DB) (e : String) : Option User :=
  db.users.find? (fun u => u.email = e)

/-- The role name of a user, resolved through the `role_id` foreign key
(the ORM relationship `user.role`). `none` when the reference dangles. -/
def roleNameOf (db : DB) (u : User) : Option String :=
  (findRoleById db u.role_id).map Role.name

/-- hash_password (app/core/security.py) — an opaque external
collaborator (bcrypt); modelled as an injective tagging function. -/
def hash_password (p : String) : String :=
  String.append "bcrypt." p

/-- Request body for POST /users/create (app/users/schemas.py UserCreate). -/
structure UserCreate where
  email : String
  name : Option String
  password : String
  role_id : Nat
deriving Repr, DecidableEq

/-- Request body for PUT /users/id (app/users/schemas.py UserUpdate);
every field optional. -/
structure UserUpdate where
  name : Option String
  email : Option String
  password : Option String
  role_id : Option Nat
deriving Repr, DecidableEq

/-- Python `user_in.name or user_in.email.split("@")[0]` — falsy name
(None or empty) falls back to the email local part. -/
def defaultName (name : Option String) (email : String) : String :=
  match name with
  | some n => if n = "" then (email.splitOn "@").headD "" else n
  | none => (email.splitOn "@").headD ""

/-- UserService.get_user (app/users/services.py:17-21). -/
def UserService.get_user (db : DB) (user_id : Nat) : Except HError User :=
  match findUserById db user_id with
  | some u => .ok u
  | none => .error ⟨404, "User not found"⟩

/-- UserService.create_user (app/users/services.py:26-64).  The actor is
the `created_by` ORM object; its loaded `role` relationship is passed as
`created_by_role`.  Returns the new database state and the created row. -/
def UserService.create_user (db : DB) (user_in : UserCreate)
    (created_by_role : Role) : Except HError (DB × User) :=
  match findUserByEmail db user_in.email with
  | some _ => .error ⟨400, "Email already exists"⟩
  | none =>
    match findRoleById db user_in.role_id with
    | none => .error ⟨400, "Role not found"⟩
    | some role =>
      if role.name = "SuperAdmin" then
        .error ⟨403, "Cannot create SuperAdmin user. Use the init endpoint."⟩
      else if role.name = "Admin" then
        if created_by_role.name ≠ "SuperAdmin" then
          .error ⟨403, "Only SuperAdmin can create Admin users"⟩
        else
          let u : User := ⟨db.next_user_id, user_in.email,
            defaultName user_in.name user_in.email,
            hash_password user_in.password, user_in.role_id⟩
          .ok ({ db with users := db.users ++ [u],
                         next_user_id := db.next_user_id + 1 }, u)
      else if role.name ∈ ["Manager", "Accounts", "Customer"] then
        if created_by_role.name ∉ ["SuperAdmin", "Admin"] then
          .error ⟨403, "Only Admin or SuperAdmin can create these users"⟩
        else
          let u : User := ⟨db.next_user_id, user_in.email,
            defaultName user_in.name user_in.email,
            hash_password user_in.password, user_in.role_id⟩
          .ok ({ db with users := db.users ++ [u],
                         next_user_id := db.next_user_id + 1 }, u)
      else
        -- custom role name: the source has no elif branch, hence no check
        let u : User := ⟨db.next_user_id, user_in.email,
          defaultName user_in.name user_in.email,
          hash_password user_in.password, user_in.role_id⟩
        .ok ({ db with users := db.users ++ [u],
                       next_user_id := db.next_user_id + 1 }, u)

/-- The role_id branch of UserService.update_user
(app/users/services.py:92-117): `if user_in.role_id is not None:`;
the inner `if user_in.role_id:` is Python truthiness, so 0 skips the
validation and is written to the row unchecked. -/
def UserService.update_user_role_step (db : DB) (u : User)
    (rid? : Option Nat) (updated_by_role : Role) : Except HError User :=
  match rid? with
  | none => .ok u
  | some rid =>
    if rid ≠ 0 then
      match findRoleById db rid with
      | none => .error ⟨400, "Role not found"⟩
      | some role =>
        if role.name = "SuperAdmin" then
          .error ⟨403, "Cannot assign SuperAdmin role"⟩
        else if role.name = "Admin" then
          if updated_by_role.name ≠ "SuperAdmin" then
            .error ⟨403, "Only SuperAdmin can assign Admin role"⟩
          else .ok { u with role_id := rid }
        else if role.name ∈ ["Manager", "Accounts", "Customer"] then
          if updated_by_role.name ∉ ["SuperAdmin", "Admin"] then
            .error ⟨403, "Only Admin or SuperAdmin can assign these roles"⟩
          else .ok { u with role_id := rid }
        else .ok { u with role_id := rid }
    else .ok { u with role_id := rid }

/-- UserService.update_user (app/users/services.py:66-121).  Queries run
against the pre-update table state (autoflush is off); the commit at the
end writes the accumulated field changes back under the user's id. -/
def UserService.update_user (db : DB) (user_id : Nat) (user_in : UserUpdate)
    (updated_by_role : Role) : Except HError (DB × User) :=
  match UserService.get_user db user_id with
  | .error e => .error e
  | .ok user =>
    if roleNameOf db user = some "SuperAdmin" ∧
        updated_by_role.name ≠ "SuperAdmin" then
      .error ⟨403, "Cannot modify SuperAdmin user"⟩
    else if roleNameOf db user = some "Admin" ∧
        updated_by_role.name ≠ "SuperAdmin" then
      .error ⟨403, "Only SuperAdmin can modify Admin users"⟩
    else
      let u1 : User :=
        match user_in.name with
        | some n => { user with name := n }
        | none => user
      let emailStep : Except HError User :=
        match user_in.email with
        | some e =>
          match db.users.find? (fun x => x.email = e ∧ x.id ≠ user_id) with
          | some _ => .error ⟨400, "Email already exists"⟩
          | none => .ok { u1 with email := e }
        | none => .ok u1
      match emailStep with
      | .error e => .error e
      | .ok u2 =>
        let u3 : User :=
          match user_in.password with
          | some p => if p = "" then u2
                      else { u2 with hashed_password := hash_password p }
          | none => u2
        match UserService.update_user_role_step db u3 user_in.role_id
            updated_by_role with
        | .error e => .error e
        | .ok u4 =>
          .ok ({ db with
                 users := db.users.map (fun x =>
                   if x.id = user_id then u4 else x) }, u4)

/-- UserService.delete_user (app/users/services.py:123-140). -/
def UserService.delete_user (db : DB) (user_id : Nat)
    (deleted_by_role : Role) : Except HError DB :=
  match UserService.get_user db user_id with
  | .error e => .error e
  | .ok user =>
    if roleNameOf db user = some "SuperAdmin" then
      .error ⟨403, "Cannot delete SuperAdmin user"⟩
    else if roleNameOf db user = some "Admin" ∧
        deleted_by_role.name ≠ "SuperAdmin" then
      .error ⟨403, "Only SuperAdmin can delete Admin users"⟩
    else
      .ok { db with users := db.users.filter (fun x => x.id ≠ user_id) }

/-- UserService.assign_role (app/users/services.py:142-170). -/
def UserService.assign_role (db : DB) (user_id role_id : Nat)
    (assigned_by_role : Role) : Except HError (DB × User) :=
  match UserService.get_user db user_id with
  | .error e => .error e
  | .ok user =>
    match findRoleById db role_id with
    | none => .error ⟨404, "Role not found"⟩
    | some role =>
      if role.name = "SuperAdmin" then
        .error ⟨403, "Cannot assign SuperAdmin role"⟩
      else if role.name = "Admin" then
        if assigned_by_role.name ≠ "SuperAdmin" then
          .error ⟨403, "Only SuperAdmin can assign Admin role"⟩
        else
          let u : User := { user with role_id := role_id }
          .ok ({ db with users := db.users.map (fun x =>
                  if x.id = user_id then u else x) }, u)
      else if role.name ∈ ["Manager", "Accounts", "Customer"] then
        if assigned_by_role.name ∉ ["SuperAdmin", "Admin"] then
          .error ⟨403, "Only Admin or SuperAdmin can assign these roles"⟩
        else
          let u : User := { user with role_id := role_id }
          .ok ({ db with users := db.users.map (fun x =>
                  if x.id = user_id then u else x) }, u)
      else
        -- custom role name: no permission branch in the source
        let u : User := { user with role_id := role_id }
        .ok ({ db with users := db.users.map (fun x =>
                if x.id = user_id then u else x) }, u)

/-- role_required (app/dependencies/permissions.py:9-47): the dependency
gate, applied to the current user's loaded role relationship.  A missing
role, or a role name outside `allowed_roles` (with the SuperAdmin
bypass), is rejected with 403. -/
def role_required (allowed_roles : List String) (role? : Option Role) :
    Except HError Unit :=
  match role? with
  | none => .error ⟨403, "User has no role assigned"⟩
  | some r =>
    if r.name = "SuperAdmin" then .ok ()
    else if r.name ∈ allowed_roles then .ok ()
    else .error ⟨403, "Role is not allowed"⟩

/-- GET /users/ (app/users/router.py:39-68): list users, filtered by the
actor's role after the `role_required(["SuperAdmin", "Admin"])` gate. -/
def UsersRouter.get_users (db : DB) (current_user : User) :
    Except HError (List User) :=
  match role_required ["SuperAdmin", "Admin"]
      (findRoleById db current_user.role_id) with
  | .error e => .error e
  | .ok _ =>
    if roleNameOf db current_user = some "SuperAdmin" then
      .ok db.users
    else if roleNameOf db current_user = some "Admin" then
      .ok (db.users.filter (fun u =>
        match roleNameOf db u with
        | some n => n ∉ ["SuperAdmin", "Admin"]
        | none => False))
    else
      .ok (db.users.filter (fun u => u.id = current_user.id))

/-- POST /users/create (app/users/router.py:19-36). -/
def UsersRouter.create_user (db : DB) (user_in : UserCreate)
    (current_user : User) : Except HError (DB × User) :=
  match role_required ["SuperAdmin", "Admin"]
      (findRoleById db current_user.role_id) with
  | .error e => .error e
  | .ok _ =>
    match findRoleById db current_user.role_id with
    | some actor_role => UserService.create_user db user_in actor_role
    | none => .error ⟨500, "AttributeError"⟩

/-- PUT /users/id (app/users/router.py:105-137): the self-update path
bypasses the role gate; a non-self update requires a SuperAdmin or Admin
actor.  The service then re-checks against the target's role.  When the
actor's `role` relationship is unset the service access
`updated_by.role.name` raises, surfaced as a 500. -/
def UsersRouter.update_user (db : DB) (user_id : Nat) (user_in : UserUpdate)
    (current_user : User) : Except HError (DB × User) :=
  match findUserById db user_id with
  | none => .error ⟨404, "User not found"⟩
  | some _ =>
    let privileged : Bool :=
      match findRoleById db current_user.role_id with
      | some r => r.name ∈ ["SuperAdmin", "Admin"]
      | none => false
    if user_id ≠ current_user.id ∧ privileged = false then
      .error ⟨403, "You can only update your own profile"⟩
    else
      match findRoleById db current_user.role_id with
      | some actor_role => UserService.update_user db user_id user_in actor_role
      | none => .error ⟨500, "AttributeError"⟩

/-- DELETE /users/id (app/users/router.py:140-155). -/
def UsersRouter.delete_user (db : DB) (user_id : Nat)
    (current_user : User) : Except HError DB :=
  match role_required ["SuperAdmin", "Admin"]
      (findRoleById db current_user.role_id) with
  | .error e => .error e
  | .ok _ =>
    match findRoleById db current_user.role_id with
    | some actor_role => UserService.delete_user db user_id actor_role
    | none => .error ⟨500, "AttributeError"⟩

/-- PUT /users/id/assign-role/rid (app/users/router.py:158-176). -/
def UsersRouter.assign_role (db : DB) (user_id role_id : Nat)
    (current_user : User) : Except HError (DB × User) :=
  match role_required ["SuperAdmin", "Admin"]
      (findRoleById db current_user.role_id) with
  | .error e => .error e
  | .ok _ =>
    match findRoleById db current_user.role_id with
    | some actor_role => UserService.assign_role db user_id role_id actor_role
    | none => .error ⟨500, "AttributeError"⟩

/-- Request body for role creation (app/roles/schemas.py RoleCreate). -/
structure RoleCreate where
  name : String
  description : Option String
deriving Repr, DecidableEq

/-- RoleService.get_role (app/roles/services.py:15-19). -/
def RoleService.get_role (db : DB) (role_id : Nat) : Except HError Role :=
  match findRoleById db role_id with
  | some r => .ok r
  | none => .error ⟨404, "Role not found"⟩

/-- RoleService.get_role_by_name (app/roles/services.py:21-22). -/
def RoleService.get_role_by_name (db : DB) (n : String) : Option Role :=
  findRoleByName db n

/-- RoleService.create_role (app/roles/services.py:24-36). -/
def RoleService.create_role (db : DB) (role_in : RoleCreate) :
    Except HError (DB × Role) :=
  match findRoleByName db role_in.name with
  | some _ => .error ⟨400, "Role already exists"⟩
  | none =>
    let r : Role := ⟨db.next_role_id, role_in.name, role_in.description⟩
    .ok ({ db with roles := db.roles ++ [r],
                   next_role_id := db.next_role_id + 1 }, r)

/-- RoleService.delete_role (app/roles/services.py:53-56): looks the
role up, then calls db.delete(role) and commits without any
application-level check for referencing users.  At flush time the ORM
(default save-update cascade, no passive_deletes) nullifies the
referencing users' role_id, which is declared nullable=False
(app/users/models.py:15), so whenever members exist the commit raises
an IntegrityError that neither the service nor the router catches —
surfaced as an unhandled 500 with the transaction rolled back.  Only a
memberless role is actually removed. -/
def RoleService.delete_role (db : DB) (role_id : Nat) : Except HError DB :=
  match RoleService.get_role db role_id with
  | .error e => .error e
  | .ok _ =>
    if db.users.filter (fun u => u.role_id = role_id) ≠ [] then
      .error ⟨500, "IntegrityError"⟩
    else
      .ok { db with roles := db.roles.filter (fun r => r.id ≠ role_id) }

/-- POST /roles/ (app/roles/router.py:40-84): name-based permission
checks, then the service.  Custom role names require a SuperAdmin actor
here (unlike the user-level services). -/
def RolesRouter.create_role (db : DB) (role_in : RoleCreate)
    (current_user : User) : Except HError (DB × Role) :=
  match role_required ["SuperAdmin", "Admin"]
      (findRoleById db current_user.role_id) with
  | .error e => .error e
  | .ok _ =>
    match findRoleById db current_user.role_id with
    | none => .error ⟨500, "AttributeError"⟩
    | some actor_role =>
      if role_in.name = "SuperAdmin" then
        .error ⟨403, "Cannot create SuperAdmin role"⟩
      else if role_in.name = "Admin" then
        if actor_role.name ≠ "SuperAdmin" then
          .error ⟨403, "Only SuperAdmin can create Admin role"⟩
        else RoleService.create_role db role_in
      else if role_in.name ∈ ["Manager", "Accounts", "Customer"] then
        if actor_role.name ∉ ["SuperAdmin", "Admin"] then
          .error ⟨403, "Only Admin or SuperAdmin can create these roles"⟩
        else RoleService.create_role db role_in
      else
        if actor_role.name ≠ "SuperAdmin" then
          .error ⟨403, "Only SuperAdmin can create custom roles"⟩
        else RoleService.create_role db role_in

/-- DELETE /roles/id (app/roles/router.py:118-142): gate, the
SuperAdmin/Admin name checks, then the service deletion (which fails
with an uncaught IntegrityError when users reference the role). -/
def RolesRouter.delete_role (db : DB) (role_id : Nat)
    (current_user : User) : Except HError DB :=
  match role_required ["SuperAdmin"]
      (findRoleById db current_user.role_id) with
  | .error e => .error e
  | .ok _ =>
    match findRoleById db current_user.role_id with
    | none => .error ⟨500, "AttributeError"⟩
    | some actor_role =>
      match RoleService.get_role db role_id with
      | .error e => .error e
      | .ok role =>
        if role.name = "SuperAdmin" then
          .error ⟨403, "Cannot delete SuperAdmin role"⟩
        else if role.name = "Admin" ∧ actor_role.name ≠ "SuperAdmin" then
          .error ⟨403, "Only SuperAdmin can delete Admin role"⟩
        else RoleService.delete_role db role_id

/-- Request body for POST /super-admin/init
(app/super_admin/router.py SuperAdminCreate). -/
structure SuperAdminCreate where
  email : String
  name : String
  password : String
  force : Bool
deriving Repr, DecidableEq

/-- The tail of init_super_admin after the force-deletion decision
(app/super_admin/router.py:69-112): email-collision check (with the
force carve-out for the SuperAdmin being replaced), SuperAdmin role
creation when missing, then user creation.  `sr?` is the
`super_admin_role` variable bound by the first query.  The first
component of the result is the committed database state — reached even
when the second component is an error, because the force deletion was
already committed. -/
def SuperAdminRouter.init_tail (db : DB) (d : SuperAdminCreate)
    (sr? : Option Role) : DB × Except HError User :=
  let emailOk : Bool :=
    match findUserByEmail db d.email with
    | none => true
    | some ex =>
      match sr? with
      | some sr => d.force && decide (ex.role_id = sr.id)
      | none => false
  if emailOk then
    let pair : DB × Role :=
      match sr? with
      | some sr => (db, sr)
      | none =>
        let r : Role := ⟨db.next_role_id, "SuperAdmin",
          some "Super Administrator with full access"⟩
        ({ db with roles := db.roles ++ [r],
                   next_role_id := db.next_role_id + 1 }, r)
    let u : User := ⟨pair.1.next_user_id, d.email, d.name,
      hash_password d.password, pair.2.id⟩
    ({ pair.1 with users := pair.1.users ++ [u],
                   next_user_id := pair.1.next_user_id + 1 }, .ok u)
  else (db, .error ⟨400, "User with this email already exists"⟩)

/-- POST /super-admin/init (app/super_admin/router.py:25-159): the
unauthenticated bootstrap endpoint.  In force mode the existing
SuperAdmin user is deleted and committed before the email-collision
check runs, so a later failure leaves that deletion in place. -/
def SuperAdminRouter.init_super_admin (db : DB) (d : SuperAdminCreate) :
    DB × Except HError User :=
  match findRoleByName db "SuperAdmin" with
  | some sr =>
    match db.users.find? (fun u => u.role_id = sr.id) with
    | some ex =>
      if d.force then
        SuperAdminRouter.init_tail
          { db with users := db.users.filter (fun u => u.id ≠ ex.id) }
          d (some sr)
      else (db, .error ⟨400, "Super Admin already exists"⟩)
    | none => SuperAdminRouter.init_tail db d (some sr)
  | none => SuperAdminRouter.init_tail db d none

/-- DELETE /super-admin/users/id (app/super_admin/router.py:208-285):
delete a SuperAdmin user; allowed even for the last one. -/
def SuperAdminRouter.delete_super_admin (db : DB) (user_id : Nat)
    (current_user : User) : Except HError DB :=
  match role_required ["SuperAdmin"]
      (findRoleById db current_user.role_id) with
  | .error e => .error e
  | .ok _ =>
    match findRoleByName db "SuperAdmin" with
    | none => .error ⟨404, "SuperAdmin role not found"⟩
    | some sr =>
      match findUserById db user_id with
      | none => .error ⟨404, "User not found"⟩
      | some user =>
        if user.role_id ≠ sr.id then
          .error ⟨400, "User is not a SuperAdmin"⟩
        else
          .ok { db with users := db.users.filter (fun x => x.id ≠ user_id) }

/-- DELETE /super-admin/role (app/super_admin/router.py:288-327): gated
by `role_required(["SuperAdmin"])`; fails while any user references the
SuperAdmin role. -/
def SuperAdminRouter.delete_super_admin_role (db : DB)
    (current_role? : Option Role) : Except HError DB :=
  match role_required ["SuperAdmin"] current_role? with
  | .error e => .error e
  | .ok _ =>
    match findRoleByName db "SuperAdmin" with
    | none => .error ⟨404, "SuperAdmin role not found"⟩
    | some sr =>
      if (db.users.filter (fun u => u.role_id = sr.id)) ≠ [] then
        .error ⟨400, "Cannot delete SuperAdmin role while users hold it"⟩
      else
        .ok { db with roles := db.roles.filter (fun r => r.id ≠ sr.id) }

/-! ## Generic facts about the embedded queries -/

/-- `.isOk` for our error monad. -/
def exceptOk {α : Type} : Except HError α → Bool
  | .ok _ => true
  | .error _ => false

/-! ## Shared concrete fixture

A small populated store: the four fixed-tier roles plus one custom role,
and one user in each of the SuperAdmin, Admin and Manager tiers. -/

def fxSaRole : Role := ⟨1, "SuperAdmin", none⟩

def fxAdRole : Role := ⟨2, "Admin", none⟩

def fxMgRole : Role := ⟨3, "Manager", none⟩

def fxCuRole : Role := ⟨4, "Support", none⟩

def fxSaUser : User := ⟨1, "sa@crm.io", "Sa", hash_password "p1", 1⟩

def fxAdUser : User := ⟨2, "ad@crm.io", "Ad", hash_password "p2", 2⟩

def fxMgUser : User := ⟨3, "mg@crm.io", "Mg", hash_password "p3", 3⟩

def fxDB : DB :=
  ⟨[fxSaRole, fxAdRole, fxMgRole, fxCuRole], [fxSaUser, fxAdUser, fxMgUser], 5, 4⟩

/-- The updated Manager row for the C10 witness instance. -/
def c10u1 : User := ⟨3, "mg@crm.io", "Zed", hash_password "p3", 3⟩

/-- The post-update store for the C10 witness instance. -/
def c10db1 : DB :=
  { fxDB with users := fxDB.users.map (fun x => if x.id = 3 then c10u1 else x) }

/-! ## C6 — SuperAdmin uniqueness across all reachable states -/

/-- Number of user rows holding the SuperAdmin role. -/
def saCount (db : DB) : Nat :=
  match findRoleByName db "SuperAdmin" with
  | none => 0
  | some sr => (db.users.filter (fun u => u.role_id = sr.id)).length

/-- The operations named by the uniqueness claim: bootstrap initialize
plus the four user mutations, each invoked as an authenticated actor
(resolved by id, as get_current_user does). -/
inductive Op where
  | bootstrap (d : SuperAdminCreate)
  | createUser (user_in : UserCreate) (actor_id : Nat)
  | updateUser (user_id : Nat) (user_in : UserUpdate) (actor_id : Nat)
  | assignRole (user_id role_id actor_id : Nat)
  | deleteUser (user_id actor_id : Nat)
deriving Repr

/-- One request against the store: failed requests leave the state
unchanged (the transaction is rolled back), except the bootstrap, whose
partial commits are kept exactly as the endpoint performs them. -/
def applyOp (db : DB) (op : Op) : DB :=
  match op with
  | .bootstrap d => (SuperAdminRouter.init_super_admin db d).1
  | .createUser user_in aid =>
    match findUserById db aid with
    | none => db
    | some actor =>
      match UsersRouter.create_user db user_in actor with
      | .ok (db1, _) => db1
      | .error _ => db
  | .updateUser uid user_in aid =>
    match findUserById db aid with
    | none => db
    | some actor =>
      match UsersRouter.update_user db uid user_in actor with
      | .ok (db1, _) => db1
      | .error _ => db
  | .assignRole uid rid aid =>
    match findUserById db aid with
    | none => db
    | some actor =>
      match UsersRouter.assign_role db uid rid actor with
      | .ok (db1, _) => db1
      | .error _ => db
  | .deleteUser uid aid =>
    match findUserById db aid with
    | none => db
    | some actor =>
      match UsersRouter.delete_user db uid actor with
      | .ok db1 => db1
      | .error _ => db

/-- The empty store; auto-increment counters start at 1. -/
def emptyDB : DB := ⟨[], [], 1, 1⟩

/-- Running a request sequence from the empty store. -/
def runOps (ops : List Op) : DB := ops.foldl applyOp emptyDB

/-- Well-formedness of a reachable store: primary keys are unique and
below their counters, role ids are positive, user role references stay
below the role counter, and at most one user holds the SuperAdmin
role. -/
structure WfDB (db : DB) : Prop where
  roles_nodup : (db.roles.map Role.id).Nodup
  roles_pos : ∀ r ∈ db.roles, 0 < r.id
  roles_lt : ∀ r ∈ db.roles, r.id < db.next_role_id
  users_nodup : (db.users.map User.id).Nodup
  users_lt : ∀ u ∈ db.users, u.id < db.next_user_id
  users_role_lt : ∀ u ∈ db.users, u.role_id < db.next_role_id
  nrole_pos : 0 < db.next_role_id
  sa_le : saCount db ≤ 1

/-- A successful role lookup returns a member row with the queried id. -/
theorem findRoleById_spec {db : DB} {rid : Nat} {r : Role}
    (h : findRoleById db rid = some r) : r ∈ db.roles ∧ r.id = rid :=
  ⟨List.mem_of_find?_eq_some h, by simpa using List.find?_some h⟩

/-- A successful role-by-name lookup returns a member row with the name. -/
theorem findRoleByName_spec {db : DB} {n : String} {r : Role}
    (h : findRoleByName db n = some r) : r ∈ db.roles ∧ r.name = n :=
  ⟨List.mem_of_find?_eq_some h, by simpa using List.find?_some h⟩

/-- A successful user lookup returns a member row with the queried id. -/
theorem findUserById_spec {db : DB} {uid : Nat} {u : User}
    (h : findUserById db uid = some u) : u ∈ db.users ∧ u.id = uid :=
  ⟨List.mem_of_find?_eq_some h, by simpa using List.find?_some h⟩

/-- get_user succeeds exactly on a successful lookup. -/
theorem get_user_eq_ok {db : DB} {uid : Nat} {u : User}
    (h : findUserById db uid = some u) :
    UserService.get_user db uid = .ok u := by
  unfold UserService.get_user; rw [h]

/-! ## C9 — role creation round-trip -/

/-- C9: for every name not already used by an existing role and every
description, createRole followed by an immediate fetch by that name
returns a role with exactly that name and description. -/
theorem c9_create_role_roundtrip (db : DB) (role_in : RoleCreate)
    (h : findRoleByName db role_in.name = none) :
    ∃ db1 r, RoleService.create_role db role_in = .ok (db1, r) ∧
      RoleService.get_role_by_name db1 role_in.name = some r ∧
      r.name = role_in.name ∧ r.description = role_in.description := by
  refine ⟨{ db with
      roles := db.roles ++ [⟨db.next_role_id, role_in.name, role_in.description⟩],
      next_role_id := db.next_role_id + 1 },
    ⟨db.next_role_id, role_in.name, role_in.description⟩, ?_, ?_, rfl, rfl⟩
  · unfold RoleService.create_role
    rw [h]
  · unfold findRoleByName at h
    unfold RoleService.get_role_by_name findRoleByName
    simp only [List.find?_append, h, Option.none_or]
    simp

/-- C9 witness: instantiated on the fixture store with a fresh name. -/
theorem c9_create_role_roundtrip_witness :
    ∃ db1 r, RoleService.create_role fxDB ⟨"Sales", some "sales desk"⟩ = .ok (db1, r) ∧
      RoleService.get_role_by_name db1 "Sales" = some r ∧
      r.name = "Sales" ∧ r.description = some "sales desk" :=
  c9_create_role_roundtrip fxDB ⟨"Sales", some "sales desk"⟩ (by rfl)

/-! ## C10 — frame property of update_user -/

/-- Shape of a successful role_id step: either no role_id was supplied
and the row is unchanged, or the supplied role_id was written. -/
theorem update_role_step_ok {db : DB} {u u' : User} {rid? : Option Nat}
    {ar : Role} (h : UserService.update_user_role_step db u rid? ar = .ok u') :
    (rid? = none ∧ u' = u) ∨
    (∃ rid, rid? = some rid ∧ u' = { u with role_id := rid }) := by
  cases rid? with
  | none =>
    left
    simp only [UserService.update_user_role_step] at h
    exact ⟨rfl, (Except.ok.inj h).symm⟩
  | some rid =>
    right
    refine ⟨rid, rfl, ?_⟩
    simp only [UserService.update_user_role_step] at h
    split at h
    · split at h
      · exact absurd h (by simp)
      · split at h
        · exact absurd h (by simp)
        · split at h
          · split at h
            · exact absurd h (by simp)
            · exact (Except.ok.inj h).symm
          · split at h
            · split at h
              · exact absurd h (by simp)
              · exact (Except.ok.inj h).symm
            · exact (Except.ok.inj h).symm
    · exact (Except.ok.inj h).symm

/-- C10: frame property of updateUser — on success, every field whose
input is absent keeps its stored value (for the credential: absent or
empty password), the user id never changes, the role table is untouched,
and only the row with the updated id changes in the user table. -/
theorem c10_update_user_frame (db : DB) (uid : Nat) (user_in : UserUpdate)
    (arole : Role) (u0 u1 : User) (db1 : DB)
    (hu : findUserById db uid = some u0)
    (hok : UserService.update_user db uid user_in arole = .ok (db1, u1)) :
    u1.id = u0.id ∧
    (user_in.name = none → u1.name = u0.name) ∧
    (user_in.email = none → u1.email = u0.email) ∧
    (user_in.role_id = none → u1.role_id = u0.role_id) ∧
    (user_in.password = none ∨ user_in.password = some "" →
      u1.hashed_password = u0.hashed_password) ∧
    db1.roles = db.roles ∧
    db1.users = db.users.map (fun x => if x.id = uid then u1 else x) := by
  simp only [UserService.update_user, get_user_eq_ok hu] at hok
  split at hok
  · exact absurd hok (by simp)
  · split at hok
    · exact absurd hok (by simp)
    · split at hok
      · exact absurd hok (by simp)
      · rename_i u2 hmail
        split at hok
        · exact absurd hok (by simp)
        · rename_i u4 hstep
          obtain ⟨hdb, hu4⟩ := Prod.ext_iff.mp (Except.ok.inj hok)
          subst hdb
          subst hu4
          have hu2 : u2.id = u0.id ∧ (user_in.name = none → u2.name = u0.name) ∧
              (user_in.email = none → u2.email = u0.email) ∧
              u2.role_id = u0.role_id ∧
              u2.hashed_password = u0.hashed_password := by
            cases hn : user_in.name with
            | none =>
              cases hm : user_in.email with
              | none =>
                rw [hn, hm] at hmail
                have h2 : u0 = u2 := Except.ok.inj hmail
                subst h2
                exact ⟨rfl, fun _ => rfl, fun _ => rfl, rfl, rfl⟩
              | some e =>
                simp only [hn, hm] at hmail
                split at hmail
                · exact absurd hmail (by simp)
                · have h2 := Except.ok.inj hmail
                  subst h2
                  exact ⟨rfl, fun _ => rfl, by simp [hm], rfl, rfl⟩
            | some n =>
              cases hm : user_in.email with
              | none =>
                rw [hn, hm] at hmail
                have h2 := Except.ok.inj hmail
                subst h2
                exact ⟨rfl, by simp [hn], fun _ => rfl, rfl, rfl⟩
              | some e =>
                simp only [hn, hm] at hmail
                split at hmail
                · exact absurd hmail (by simp)
                · have h2 := Except.ok.inj hmail
                  subst h2
                  exact ⟨rfl, by simp [hn], by simp [hm], rfl, rfl⟩
          obtain ⟨h2id, h2n, h2e, h2r, h2p⟩ := hu2
          have hu3 : ∀ u3 : User,
              (u3 = match user_in.password with
                | some p => if p = "" then u2
                            else { u2 with hashed_password := hash_password p }
                | none => u2) →
              u3.id = u0.id ∧ u3.name = u2.name ∧ u3.email = u2.email ∧
              u3.role_id = u0.role_id ∧
              (user_in.password = none ∨ user_in.password = some "" →
                u3.hashed_password = u0.hashed_password) := by
            intro u3 h3
            cases hp : user_in.password with
            | none =>
              simp only [hp] at h3
              subst h3
              exact ⟨h2id, rfl, rfl, h2r, fun _ => h2p⟩
            | some p =>
              simp only [hp] at h3
              by_cases hpe : p = ""
              · rw [if_pos hpe] at h3
                subst h3
                exact ⟨h2id, rfl, rfl, h2r, fun _ => h2p⟩
              · rw [if_neg hpe] at h3
                subst h3
                refine ⟨h2id, rfl, rfl, h2r, ?_⟩
                rintro (hc | hc)
                · exact absurd hc (by simp)
                · exact absurd (Option.some.inj hc) hpe
          obtain ⟨h3id, h3n, h3e, h3r, h3p⟩ := hu3 _ rfl
          rcases update_role_step_ok hstep with ⟨hnone, h4⟩ | ⟨rid, hsome, h4⟩
          · subst h4
            exact ⟨h3id, fun hn => (h3n.trans (h2n hn)),
              fun hm => (h3e.trans (h2e hm)), fun _ => h3r, h3p, rfl, rfl⟩
          · subst h4
            refine ⟨h3id, fun hn => (h3n.trans (h2n hn)),
              fun hm => (h3e.trans (h2e hm)), ?_, h3p, rfl, rfl⟩
            intro hc
            rw [hc] at hsome
            exact absurd hsome (by simp)

/-- C10 witness: a name-only update of the Manager user in the fixture
store, every other field untouched. -/
theorem c10_update_user_frame_witness :
    c10u1.id = fxMgUser.id ∧
    ((⟨some "Zed", none, none, none⟩ : UserUpdate).name = none →
      c10u1.name = fxMgUser.name) ∧
    ((⟨some "Zed", none, none, none⟩ : UserUpdate).email = none →
      c10u1.email = fxMgUser.email) ∧
    ((⟨some "Zed", none, none, none⟩ : UserUpdate).role_id = none →
      c10u1.role_id = fxMgUser.role_id) ∧
    ((⟨some "Zed", none, none, none⟩ : UserUpdate).password = none ∨
      (⟨some "Zed", none, none, none⟩ : UserUpdate).password = some "" →
      c10u1.hashed_password = fxMgUser.hashed_password) ∧
    c10db1.roles = fxDB.roles ∧
    c10db1.users = fxDB.users.map (fun x => if x.id = 3 then c10u1 else x) :=
  c10_update_user_frame fxDB 3 ⟨some "Zed", none, none, none⟩ fxMgRole
    fxMgUser c10u1 c10db1 (by rfl) (by rfl)

/-! ## C1 — SuperAdmin as update/delete target -/

/-- Resolving the actor or target role relationship. -/
theorem roleNameOf_eq {db : DB} {u : User} {r : Role}
    (h : findRoleById db u.role_id = some r) :
    roleNameOf db u = some r.name := by
  simp [roleNameOf, h]

/-- C1 counterexample: a SuperAdmin actor updating the (SuperAdmin)
target user through the ordinary PUT /users/id path is NOT denied — the
claim is false for a SuperAdmin actor.  The target holds the SuperAdmin
role, the actor is that same SuperAdmin user, and the update succeeds. -/
theorem c1_counterexample :
    roleNameOf fxDB fxSaUser = some "SuperAdmin" ∧
    findRoleById fxDB fxSaUser.role_id = some fxSaRole ∧
    fxSaRole.name = "SuperAdmin" ∧
    exceptOk (UsersRouter.update_user fxDB 1
      ⟨some "New", none, none, none⟩ fxSaUser) = true := by
  refine ⟨by rfl, by rfl, by rfl, by rfl⟩

/-- C1 amended: updateUser on a target holding the SuperAdmin role is
denied (Forbidden) for every actor whose role is NOT SuperAdmin, and
deleteUser on such a target is denied for every actor; a SuperAdmin
actor, however, passes the update check (see the counterexample). -/
theorem c1_superadmin_target_guard (db : DB) (uid : Nat) (u0 : User)
    (arole brole : Role) (user_in : UserUpdate)
    (hu : findUserById db uid = some u0)
    (hsa : roleNameOf db u0 = some "SuperAdmin")
    (hact : arole.name ≠ "SuperAdmin") :
    UserService.update_user db uid user_in arole =
      .error ⟨403, "Cannot modify SuperAdmin user"⟩ ∧
    UserService.delete_user db uid brole =
      .error ⟨403, "Cannot delete SuperAdmin user"⟩ := by
  constructor
  · simp only [UserService.update_user, get_user_eq_ok hu]
    rw [if_pos ⟨hsa, hact⟩]
  · simp only [UserService.delete_user, get_user_eq_ok hu]
    rw [if_pos hsa]

/-- C1 witness: the Admin actor of the fixture store against the
SuperAdmin user. -/
theorem c1_superadmin_target_guard_witness :
    UserService.update_user fxDB 1 ⟨some "X", none, none, none⟩ fxAdRole =
      .error ⟨403, "Cannot modify SuperAdmin user"⟩ ∧
    UserService.delete_user fxDB 1 fxAdRole =
      .error ⟨403, "Cannot delete SuperAdmin user"⟩ :=
  c1_superadmin_target_guard fxDB 1 fxSaUser fxAdRole fxAdRole
    ⟨some "X", none, none, none⟩ (by rfl) (by rfl) (by decide)

/-! ## C2 — self-service carve-out -/

/-- C2 counterexample: the Admin user updating their OWN name through
PUT /users/id is rejected by the Admin-target check in the service, so
the self-service carve-out does not hold for an Admin: the claim is
false at this input. -/
theorem c2_counterexample :
    fxAdUser.id = 2 ∧
    roleNameOf fxDB fxAdUser = some "Admin" ∧
    UsersRouter.update_user fxDB 2 ⟨some "NewName", none, none, none⟩ fxAdUser =
      .error ⟨403, "Only SuperAdmin can modify Admin users"⟩ := by
  refine ⟨by rfl, by rfl, by rfl⟩

/-- C2 amended: a user whose role is not Admin may always update their
own non-role fields — name, email (when the supplied email collides with
no other user), credential; a user whose role is Admin is denied
self-update by the Admin-target check; and a self role change still goes
through the full assignment check (self-promotion to Admin by a
non-SuperAdmin is denied).  `uinA` is a non-role payload, `uinB` a
payload carrying a role change. -/
theorem c2_self_service_carveout (db : DB) (u : User) (r : Role)
    (uinA uinB : UserUpdate) (rid : Nat) (rrole : Role)
    (hu : findUserById db u.id = some u)
    (hr : findRoleById db u.role_id = some r) :
    (uinA.role_id = none →
      (∀ e, uinA.email = some e →
        db.users.find? (fun x => x.email = e ∧ x.id ≠ u.id) = none) →
      r.name ≠ "Admin" →
      exceptOk (UsersRouter.update_user db u.id uinA u) = true) ∧
    (r.name = "Admin" →
      UsersRouter.update_user db u.id uinA u =
        .error ⟨403, "Only SuperAdmin can modify Admin users"⟩) ∧
    (uinB.role_id = some rid → rid ≠ 0 →
      (∀ e, uinB.email = some e →
        db.users.find? (fun x => x.email = e ∧ x.id ≠ u.id) = none) →
      findRoleById db rid = some rrole → rrole.name = "Admin" →
      r.name ≠ "SuperAdmin" → r.name ≠ "Admin" →
      UsersRouter.update_user db u.id uinB u =
        .error ⟨403, "Only SuperAdmin can assign Admin role"⟩) := by
  have hrn := roleNameOf_eq hr
  refine ⟨?_, ?_, ?_⟩
  · intro hrid hmail hradm
    simp only [UsersRouter.update_user, hu]
    rw [if_neg (by simp)]
    simp only [hr, UserService.update_user, get_user_eq_ok hu]
    rw [if_neg (fun hcon => hcon.2 (Option.some.inj (hrn.symm.trans hcon.1)))]
    rw [if_neg (fun hcon => hradm (Option.some.inj (hrn.symm.trans hcon.1)))]
    cases hm : uinA.email with
    | none =>
      simp only [hm, hrid, UserService.update_user_role_step]
      rfl
    | some e =>
      have hfind := hmail e hm
      simp only [hm, hfind, hrid, UserService.update_user_role_step]
      rfl
  · intro hadm
    simp only [UsersRouter.update_user, hu]
    rw [if_neg (by simp)]
    simp only [hr, UserService.update_user, get_user_eq_ok hu]
    rw [if_neg (fun hcon => by
      have h9 := Option.some.inj (hrn.symm.trans hcon.1)
      rw [hadm] at h9
      exact absurd h9 (by decide))]
    rw [if_pos ⟨by rw [hrn, hadm], by rw [hadm]; decide⟩]
  · intro h1 h2 hmail h3 h4 h5 h6
    simp only [UsersRouter.update_user, hu]
    rw [if_neg (by simp)]
    simp only [hr, UserService.update_user, get_user_eq_ok hu]
    rw [if_neg (fun hcon => h5 (Option.some.inj (hrn.symm.trans hcon.1)))]
    rw [if_neg (fun hcon => h6 (Option.some.inj (hrn.symm.trans hcon.1)))]
    cases hm : uinB.email with
    | none =>
      simp only [hm, h1, UserService.update_user_role_step]
      rw [if_pos h2]
      simp only [h3]
      rw [if_neg (by rw [h4]; decide)]
      rw [if_pos h4]
      rw [if_pos h5]
    | some e =>
      have hfind := hmail e hm
      simp only [hm, hfind, h1, UserService.update_user_role_step]
      rw [if_pos h2]
      simp only [h3]
      rw [if_neg (by rw [h4]; decide)]
      rw [if_pos h4]
      rw [if_pos h5]

/-- C2 witness: the Manager user of the fixture store self-updates name
and email successfully, and their attempted self-promotion to the Admin
role is denied — every hypothesis discharged at concrete inputs. -/
theorem c2_self_service_carveout_witness :
    exceptOk (UsersRouter.update_user fxDB 3
      ⟨some "Self", some "self2@crm.io", some "npw", none⟩ fxMgUser) = true ∧
    UsersRouter.update_user fxDB 3 ⟨none, none, none, some 2⟩ fxMgUser =
      .error ⟨403, "Only SuperAdmin can assign Admin role"⟩ :=
  ⟨(c2_self_service_carveout fxDB fxMgUser fxMgRole
      ⟨some "Self", some "self2@crm.io", some "npw", none⟩
      ⟨none, none, none, some 2⟩ 2 fxAdRole (by rfl) (by rfl)).1
    (by rfl)
    (by intro e he; obtain rfl := Option.some.inj he; rfl)
    (by decide),
   (c2_self_service_carveout fxDB fxMgUser fxMgRole
      ⟨some "Self", some "self2@crm.io", some "npw", none⟩
      ⟨none, none, none, some 2⟩ 2 fxAdRole (by rfl) (by rfl)).2.2
    (by rfl) (by decide)
    (by intro e he; exact absurd he (by simp))
    (by rfl) (by rfl) (by decide) (by decide)⟩

/-! ## C3 — custom target roles -/

/-- C3 counterexample: an Admin actor (not SuperAdmin) both creates a
user holding the custom role "Support" and re-assigns an existing user
to it, through the ordinary user endpoints — the SuperAdmin-only rule
for custom roles is false on the user paths. -/
theorem c3_counterexample :
    fxCuRole.name = "Support" ∧
    roleNameOf fxDB fxAdUser = some "Admin" ∧
    exceptOk (UsersRouter.create_user fxDB
      ⟨"new@crm.io", some "N", "pw", 4⟩ fxAdUser) = true ∧
    exceptOk (UsersRouter.assign_role fxDB 3 4 fxAdUser) = true := by
  refine ⟨by rfl, by rfl, by rfl, by rfl⟩

/-- C3 amended: the user-level services run NO role-name permission
check when the target role is custom — any actor role passes createUser,
assignRole and the updateUser role change; the only protection is the
router gate, which admits both SuperAdmin and Admin actors and rejects
everyone else. -/
theorem c3_custom_role_unchecked (db : DB) (rid uid : Nat)
    (crole arole : Role) (user_in : UserCreate) (u0 u : User)
    (hrole : findRoleById db rid = some crole)
    (hcustom : crole.name ∉
      ["SuperAdmin", "Admin", "Manager", "Accounts", "Customer"]) :
    (user_in.role_id = rid → findUserByEmail db user_in.email = none →
      exceptOk (UserService.create_user db user_in arole) = true) ∧
    (findUserById db uid = some u0 →
      exceptOk (UserService.assign_role db uid rid arole) = true) ∧
    (rid ≠ 0 →
      UserService.update_user_role_step db u (some rid) arole =
        .ok { u with role_id := rid }) ∧
    (arole.name ∉ ["SuperAdmin", "Admin"] →
      role_required ["SuperAdmin", "Admin"] (some arole) =
        .error ⟨403, "Role is not allowed"⟩) := by
  have hc1 : ¬crole.name = "SuperAdmin" := by
    intro h; exact hcustom (by simp [h])
  have hc2 : ¬crole.name = "Admin" := by
    intro h; exact hcustom (by simp [h])
  have hc3 : crole.name ∉ ["Manager", "Accounts", "Customer"] := by
    intro h
    apply hcustom
    simp only [List.mem_cons] at h ⊢
    tauto
  refine ⟨?_, ?_, ?_, ?_⟩
  · intro h1 h2
    simp only [UserService.create_user, h2, h1, hrole]
    rw [if_neg hc1, if_neg hc2, if_neg hc3]
    rfl
  · intro h
    simp only [UserService.assign_role, get_user_eq_ok h, hrole]
    rw [if_neg hc1, if_neg hc2, if_neg hc3]
    rfl
  · intro h0
    simp only [UserService.update_user_role_step]
    rw [if_pos h0]
    simp only [hrole]
    rw [if_neg hc1, if_neg hc2, if_neg hc3]
  · intro h
    have ha1 : ¬arole.name = "SuperAdmin" := by
      intro hx; exact h (by simp [hx])
    simp only [role_required]
    rw [if_neg ha1, if_neg h]

/-- C3 witness: a Manager-role actor passes the service-level checks for
the custom "Support" role in the fixture store. -/
theorem c3_custom_role_unchecked_witness :
    ((⟨"n2@crm.io", some "Q", "pw", 4⟩ : UserCreate).role_id = 4 →
      findUserByEmail fxDB "n2@crm.io" = none →
      exceptOk (UserService.create_user fxDB
        ⟨"n2@crm.io", some "Q", "pw", 4⟩ fxMgRole) = true) ∧
    (findUserById fxDB 3 = some fxMgUser →
      exceptOk (UserService.assign_role fxDB 3 4 fxMgRole) = true) ∧
    ((4 : Nat) ≠ 0 →
      UserService.update_user_role_step fxDB fxMgUser (some 4) fxMgRole =
        .ok { fxMgUser with role_id := 4 }) ∧
    (fxMgRole.name ∉ ["SuperAdmin", "Admin"] →
      role_required ["SuperAdmin", "Admin"] (some fxMgRole) =
        .error ⟨403, "Role is not allowed"⟩) :=
  c3_custom_role_unchecked fxDB 4 3 fxCuRole fxMgRole
    ⟨"n2@crm.io", some "Q", "pw", 4⟩ fxMgUser fxMgUser (by rfl) (by decide)

/-! ## C4 — role deletion with referencing users -/

/-- C4 counterexample: the SuperAdmin deleting the Manager role while
the Manager user still references it fails — but with the raw
IntegrityError surfaced as an unhandled 500 (Internal), not with the
structured InvalidOperation (400 HTTPException) the claim names. -/
theorem c4_counterexample :
    fxMgUser ∈ fxDB.users ∧ fxMgUser.role_id = 3 ∧
    findRoleById fxDB 3 = some fxMgRole ∧
    RolesRouter.delete_role fxDB 3 fxSaUser = .error ⟨500, "IntegrityError"⟩ := by
  refine ⟨by decide, by rfl, by rfl, by rfl⟩

/-- C4 amended: deleting a role with at least one referencing user does
fail and the role remains — but through an uncaught storage-level
IntegrityError surfaced as Internal (500), not a structured
InvalidOperation; a role (not named SuperAdmin) is actually deleted
exactly when zero users reference it. -/
theorem c4_delete_role_member_semantics (db : DB) (rid : Nat)
    (r arole : Role) (cu : User)
    (hr : findRoleById db rid = some r)
    (hcu : findRoleById db cu.role_id = some arole)
    (hsa : arole.name = "SuperAdmin") :
    (r.name ≠ "SuperAdmin" →
      db.users.filter (fun u => u.role_id = rid) ≠ [] →
      RolesRouter.delete_role db rid cu = .error ⟨500, "IntegrityError"⟩) ∧
    (r.name ≠ "SuperAdmin" →
      db.users.filter (fun u => u.role_id = rid) = [] →
      RolesRouter.delete_role db rid cu =
        .ok { db with roles := db.roles.filter (fun x => x.id ≠ rid) }) ∧
    (r.name = "SuperAdmin" →
      RolesRouter.delete_role db rid cu =
        .error ⟨403, "Cannot delete SuperAdmin role"⟩) := by
  have hgate : role_required ["SuperAdmin"] (some arole) = .ok () := by
    simp only [role_required]
    rw [if_pos hsa]
  refine ⟨?_, ?_, ?_⟩
  · intro h hmem
    simp only [RolesRouter.delete_role, hgate, hcu, RoleService.get_role, hr]
    rw [if_neg h, if_neg (fun hcon => hcon.2 hsa)]
    simp only [RoleService.delete_role, RoleService.get_role, hr]
    rw [if_pos hmem]
  · intro h hmem
    simp only [RolesRouter.delete_role, hgate, hcu, RoleService.get_role, hr]
    rw [if_neg h, if_neg (fun hcon => hcon.2 hsa)]
    simp only [RoleService.delete_role, RoleService.get_role, hr]
    rw [if_neg (fun hc => hc hmem)]
  · intro h
    simp only [RolesRouter.delete_role, hgate, hcu, RoleService.get_role, hr]
    rw [if_pos h]

/-- C4 witness: in the fixture store, deleting the referenced Manager
role raises the 500, deleting the memberless Support role succeeds, and
the SuperAdmin role is refused — all via the theorem at concrete
inputs. -/
theorem c4_delete_role_member_semantics_witness :
    (RolesRouter.delete_role fxDB 3 fxSaUser =
      .error ⟨500, "IntegrityError"⟩) ∧
    (RolesRouter.delete_role fxDB 4 fxSaUser =
      .ok { fxDB with roles := fxDB.roles.filter (fun x => x.id ≠ 4) }) ∧
    (RolesRouter.delete_role fxDB 1 fxSaUser =
      .error ⟨403, "Cannot delete SuperAdmin role"⟩) :=
  ⟨(c4_delete_role_member_semantics fxDB 3 fxMgRole fxSaRole fxSaUser
      (by rfl) (by rfl) (by rfl)).1 (by decide) (by decide),
   (c4_delete_role_member_semantics fxDB 4 fxCuRole fxSaRole fxSaUser
      (by rfl) (by rfl) (by rfl)).2.1 (by decide) (by rfl),
   (c4_delete_role_member_semantics fxDB 1 fxSaRole fxSaRole fxSaUser
      (by rfl) (by rfl) (by rfl)).2.2 (by rfl)⟩

/-! ## C5 — forced bootstrap with a colliding email -/

/-- C5 counterexample: force-init with the Admin user's email returns
Conflict, but the pre-existing SuperAdmin user has already been deleted
and committed — the "no mutation" part of the claim is false. -/
theorem c5_counterexample :
    roleNameOf fxDB fxSaUser = some "SuperAdmin" ∧
    roleNameOf fxDB fxAdUser = some "Admin" ∧
    SuperAdminRouter.init_super_admin fxDB ⟨"ad@crm.io", "X", "pw", true⟩ =
      ({ fxDB with users := [fxAdUser, fxMgUser] },
       .error ⟨400, "User with this email already exists"⟩) ∧
    findUserById { fxDB with users := [fxAdUser, fxMgUser] } 1 = none := by
  refine ⟨by rfl, by rfl, by rfl, by rfl⟩

/-- C5 amended: when force-init collides with the email of another
(non-SuperAdmin) user, the call does fail with Conflict — but only after
the existing SuperAdmin user has been deleted and committed; the
resulting state no longer contains that user (the system is left in the
Absent state, recoverable only by another init call). -/
theorem c5_force_init_email_conflict (db : DB) (d : SuperAdminCreate)
    (sr : Role) (ex v : User)
    (hforce : d.force = true)
    (hsr : findRoleByName db "SuperAdmin" = some sr)
    (hex : db.users.find? (fun u => u.role_id = sr.id) = some ex)
    (hv : findUserByEmail
      { db with users := db.users.filter (fun u => u.id ≠ ex.id) } d.email
      = some v)
    (hvrole : v.role_id ≠ sr.id) :
    SuperAdminRouter.init_super_admin db d =
      ({ db with users := db.users.filter (fun u => u.id ≠ ex.id) },
       .error ⟨400, "User with this email already exists"⟩) := by
  simp only [SuperAdminRouter.init_super_admin, hsr, hex, hforce, if_true]
  simp only [SuperAdminRouter.init_tail, hv, hforce, hvrole]
  simp

/-- C5 witness: the fixture store with the Admin user's email under
force. -/
theorem c5_force_init_email_conflict_witness :
    SuperAdminRouter.init_super_admin fxDB ⟨"ad@crm.io", "X", "pw", true⟩ =
      ({ fxDB with users := fxDB.users.filter (fun u => u.id ≠ fxSaUser.id) },
       .error ⟨400, "User with this email already exists"⟩) :=
  c5_force_init_email_conflict fxDB ⟨"ad@crm.io", "X", "pw", true⟩
    fxSaRole fxSaUser fxAdUser (by rfl) (by rfl) (by rfl) (by rfl) (by decide)

/-! ## C7 — deleting the SuperAdmin role -/

/-- C7 counterexample: a non-SuperAdmin (Admin) actor calling
DELETE /super-admin/role while a SuperAdmin user exists gets 403
Forbidden from the role gate, not InvalidOperation; and after the
SuperAdmin user is removed the same call still gets 403 — it does not
succeed. -/
theorem c7_counterexample :
    roleNameOf fxDB fxAdUser = some "Admin" ∧
    fxDB.users.filter (fun u => u.role_id = fxSaRole.id) = [fxSaUser] ∧
    SuperAdminRouter.delete_super_admin_role fxDB (some fxAdRole) =
      .error ⟨403, "Role is not allowed"⟩ ∧
    SuperAdminRouter.delete_super_admin_role
      { fxDB with users := [fxAdUser, fxMgUser] } (some fxAdRole) =
      .error ⟨403, "Role is not allowed"⟩ := by
  refine ⟨by rfl, by rfl, by rfl, by rfl⟩

/-- C7 amended: deleteSuperAdminRole is gated by
role_required(["SuperAdmin"]): an actor with no or a non-SuperAdmin role
always gets Forbidden (403), a SuperAdmin-role actor gets
InvalidOperation while any user holds the role — and since any actor who
is a user of the store and passes the gate is themselves such a holder,
no actor drawn from the store can ever succeed on this endpoint. -/
theorem c7_delete_sa_role_gate (db : DB) (r sr : Role) (u : User) :
    (SuperAdminRouter.delete_super_admin_role db none =
      .error ⟨403, "User has no role assigned"⟩) ∧
    (r.name ≠ "SuperAdmin" →
      SuperAdminRouter.delete_super_admin_role db (some r) =
        .error ⟨403, "Role is not allowed"⟩) ∧
    (r.name = "SuperAdmin" → findRoleByName db "SuperAdmin" = some sr →
      db.users.filter (fun x => x.role_id = sr.id) ≠ [] →
      SuperAdminRouter.delete_super_admin_role db (some r) =
        .error ⟨400, "Cannot delete SuperAdmin role while users hold it"⟩) ∧
    (u ∈ db.users → findRoleById db u.role_id = some r →
      (db.roles.map Role.name).Nodup →
      exceptOk (SuperAdminRouter.delete_super_admin_role db (some r)) = false) := by
  refine ⟨by rfl, ?_, ?_, ?_⟩
  · intro h
    simp only [SuperAdminRouter.delete_super_admin_role, role_required]
    rw [if_neg h, if_neg (by simp [h])]
  · intro h1 h2 h3
    simp only [SuperAdminRouter.delete_super_admin_role, role_required]
    rw [if_pos h1]
    simp only [h2]
    rw [if_pos h3]
  · intro hu hr hnodup
    by_cases hname : r.name = "SuperAdmin"
    · cases hsr : findRoleByName db "SuperAdmin" with
      | none =>
        simp only [SuperAdminRouter.delete_super_admin_role, role_required]
        rw [if_pos hname]
        simp only [hsr]
        rfl
      | some sr2 =>
        obtain ⟨hmem2, hname2⟩ := findRoleByName_spec hsr
        obtain ⟨hmem1, hid1⟩ := findRoleById_spec hr
        have hreq : sr2 = r :=
          List.inj_on_of_nodup_map hnodup hmem2 hmem1 (by rw [hname2, hname])
        have hin : u ∈ db.users.filter (fun x => x.role_id = sr2.id) := by
          refine List.mem_filter.mpr ⟨hu, ?_⟩
          simp [hreq, ← hid1]
        simp only [SuperAdminRouter.delete_super_admin_role, role_required]
        rw [if_pos hname]
        simp only [hsr]
        rw [if_pos (List.ne_nil_of_mem hin)]
        rfl
    · simp only [SuperAdminRouter.delete_super_admin_role, role_required]
      rw [if_neg hname, if_neg (by simp [hname])]
      rfl

/-- C7 witness: the Admin actor and SuperAdmin role of the fixture
store. -/
theorem c7_delete_sa_role_gate_witness :
    (SuperAdminRouter.delete_super_admin_role fxDB none =
      .error ⟨403, "User has no role assigned"⟩) ∧
    (fxAdRole.name ≠ "SuperAdmin" →
      SuperAdminRouter.delete_super_admin_role fxDB (some fxAdRole) =
        .error ⟨403, "Role is not allowed"⟩) ∧
    (fxAdRole.name = "SuperAdmin" →
      findRoleByName fxDB "SuperAdmin" = some fxSaRole →
      fxDB.users.filter (fun x => x.role_id = fxSaRole.id) ≠ [] →
      SuperAdminRouter.delete_super_admin_role fxDB (some fxAdRole) =
        .error ⟨400, "Cannot delete SuperAdmin role while users hold it"⟩) ∧
    (fxAdUser ∈ fxDB.users → findRoleById fxDB fxAdUser.role_id = some fxAdRole →
      (fxDB.roles.map Role.name).Nodup →
      exceptOk (SuperAdminRouter.delete_super_admin_role fxDB (some fxAdRole))
        = false) :=
  c7_delete_sa_role_gate fxDB fxAdRole fxSaRole fxAdUser

/-! ## C8 — listing visibility -/

/-- C8 counterexample: a Manager actor listing users is rejected with
403 by the route gate instead of receiving the singleton of their own
record. -/
theorem c8_counterexample :
    roleNameOf fxDB fxMgUser = some "Manager" ∧
    UsersRouter.get_users fxDB fxMgUser = .error ⟨403, "Role is not allowed"⟩ := by
  refine ⟨by rfl, by rfl⟩

/-- C8 amended: a SuperAdmin actor receives all users; an Admin actor
receives exactly the users whose resolvable role name is outside
SuperAdmin/Admin; every other actor is rejected with Forbidden by the
role_required gate (the own-record branch of the filter is unreachable
through the route). -/
theorem c8_list_users_filter (db : DB) (cu : User) (r : Role)
    (hr : findRoleById db cu.role_id = some r) :
    (r.name = "SuperAdmin" → UsersRouter.get_users db cu = .ok db.users) ∧
    (r.name = "Admin" → ∃ l, UsersRouter.get_users db cu = .ok l ∧
      ∀ x, x ∈ l ↔ x ∈ db.users ∧ ∃ n, roleNameOf db x = some n ∧
        n ≠ "SuperAdmin" ∧ n ≠ "Admin") ∧
    (r.name ≠ "SuperAdmin" → r.name ≠ "Admin" →
      UsersRouter.get_users db cu = .error ⟨403, "Role is not allowed"⟩) := by
  have hrn := roleNameOf_eq hr
  refine ⟨?_, ?_, ?_⟩
  · intro h
    have hgate : role_required ["SuperAdmin", "Admin"] (some r) = .ok () := by
      simp only [role_required]
      rw [if_pos h]
    simp only [UsersRouter.get_users, hr, hgate]
    rw [if_pos (by rw [hrn, h])]
  · intro h
    have hgate : role_required ["SuperAdmin", "Admin"] (some r) = .ok () := by
      simp only [role_required]
      rw [if_neg (by rw [h]; decide), if_pos (by simp [h])]
    simp only [UsersRouter.get_users, hr, hgate]
    rw [if_neg (by rw [hrn, h]; simp), if_pos (by rw [hrn, h])]
    refine ⟨_, rfl, fun x => ?_⟩
    rw [List.mem_filter]
    constructor
    · rintro ⟨hx, hpx⟩
      refine ⟨hx, ?_⟩
      cases hnx : roleNameOf db x with
      | none => simp only [hnx] at hpx; exact absurd hpx (by simp)
      | some n =>
        simp only [hnx] at hpx
        simp only [List.mem_cons, List.not_mem_nil, or_false,
          decide_eq_true_eq] at hpx
        push_neg at hpx
        exact ⟨n, rfl, hpx.1, hpx.2⟩
    · rintro ⟨hx, n, hnx, h1, h2⟩
      refine ⟨hx, ?_⟩
      simp only [hnx]
      simp [h1, h2]
  · intro h1 h2
    simp only [UsersRouter.get_users, role_required, hr]
    rw [if_neg h1, if_neg (by simp [h1, h2])]

/-- C8 witness: the Admin actor of the fixture store. -/
theorem c8_list_users_filter_witness :
    (fxAdRole.name = "SuperAdmin" →
      UsersRouter.get_users fxDB fxAdUser = .ok fxDB.users) ∧
    (fxAdRole.name = "Admin" → ∃ l, UsersRouter.get_users fxDB fxAdUser = .ok l ∧
      ∀ x, x ∈ l ↔ x ∈ fxDB.users ∧ ∃ n, roleNameOf fxDB x = some n ∧
        n ≠ "SuperAdmin" ∧ n ≠ "Admin") ∧
    (fxAdRole.name ≠ "SuperAdmin" → fxAdRole.name ≠ "Admin" →
      UsersRouter.get_users fxDB fxAdUser = .error ⟨403, "Role is not allowed"⟩) :=
  c8_list_users_filter fxDB fxAdUser fxAdRole (by rfl)

/-- Filtering twice never yields more matches than filtering once. -/
theorem length_filter_filter_le {α : Type} (l : List α) (p q : α → Bool) :
    ((l.filter q).filter p).length ≤ (l.filter p).length := by
  rw [List.filter_filter, ← List.countP_eq_length_filter,
    ← List.countP_eq_length_filter]
  exact List.countP_mono_left (fun x _ h => by
    simp only [Bool.and_eq_true] at h
    exact h.1)

/-- Dropping a present match strictly decreases the match count. -/
theorem length_filter_filter_lt {α : Type} (l : List α) (p q : α → Bool)
    (x : α) (hx : x ∈ l) (hpx : p x = true) (hqx : q x = false) :
    ((l.filter q).filter p).length < (l.filter p).length := by
  rw [List.filter_filter]
  induction l with
  | nil => cases hx
  | cons a t ih =>
    rcases List.mem_cons.mp hx with rfl | hx2
    · have hle : (t.filter (fun a => p a && q a)).length ≤
          (t.filter p).length := by
        rw [← List.filter_filter]
        exact length_filter_filter_le t p q
      simp only [List.filter_cons, hpx, hqx, Bool.and_false, if_neg, if_pos,
        Bool.false_eq_true, not_false_eq_true, List.length_cons, if_true]
      omega
    · by_cases hq : q a <;> by_cases hp : p a <;>
        have h1 := ih hx2 <;>
        simp only [List.filter_cons, hq, hp, Bool.and_true, Bool.and_false,
          List.length_cons, if_true, if_neg, Bool.false_eq_true,
          not_false_eq_true, if_pos] <;>
      omega

/-- Rewriting a mapped list's match count when the map can only lose
matches pointwise. -/
theorem length_filter_map_le {α : Type} (l : List α) (f : α → α)
    (p : α → Bool) (h : ∀ x ∈ l, p (f x) = true → p x = true) :
    ((l.map f).filter p).length ≤ (l.filter p).length := by
  induction l with
  | nil => simp
  | cons a t ih =>
    have ht := ih (fun x hx => h x (List.mem_cons_of_mem a hx))
    have ha := h a (List.mem_cons_self a t)
    by_cases hfa : p (f a)
    · have hpa := ha hfa
      simp only [List.map_cons, List.filter_cons, hfa, hpa, if_true,
        List.length_cons]
      omega
    · by_cases hpa : p a <;>
        simp only [List.map_cons, List.filter_cons, hfa, hpa, if_true, if_neg,
          Bool.false_eq_true, not_false_eq_true, List.length_cons] <;>
      omega

/-- A present match makes the filter nonempty. -/
theorem length_filter_pos {α : Type} {l : List α} {p : α → Bool} {x : α}
    (hx : x ∈ l) (hp : p x = true) : 0 < (l.filter p).length :=
  List.length_pos.mpr (List.ne_nil_of_mem (List.mem_filter.mpr ⟨hx, hp⟩))

/-- With unique user ids, a user-by-id lookup pins down every member
with that id. -/
theorem findUserById_unique {db : DB} {uid : Nat} {u0 : User}
    (hn : (db.users.map User.id).Nodup)
    (h : findUserById db uid = some u0) :
    ∀ x ∈ db.users, x.id = uid → x = u0 := by
  intro x hx hxid
  obtain ⟨hm, hid⟩ := findUserById_spec h
  exact List.inj_on_of_nodup_map hn hx hm (by rw [hxid, hid])

/-- A role resolved by id whose name is not SuperAdmin cannot be the
role the SuperAdmin-name lookup returns (role ids unique). -/
theorem not_sa_role_id {db : DB} {rid : Nat} {role sr : Role}
    (hnodup : (db.roles.map Role.id).Nodup)
    (hrole : findRoleById db rid = some role)
    (hname : role.name ≠ "SuperAdmin")
    (hsr : findRoleByName db "SuperAdmin" = some sr) :
    rid ≠ sr.id := by
  intro he
  obtain ⟨hm1, hid1⟩ := findRoleById_spec hrole
  obtain ⟨hm2, hname2⟩ := findRoleByName_spec hsr
  have heq : role = sr :=
    List.inj_on_of_nodup_map hnodup hm1 hm2 (by rw [hid1, he])
  exact hname (by rw [heq, hname2])

/-- The SuperAdmin-role lookup only depends on the role table. -/
theorem findRoleByName_congr {db1 db : DB} (h : db1.roles = db.roles)
    (n : String) : findRoleByName db1 n = findRoleByName db n := by
  unfold findRoleByName
  rw [h]

/-- saCount through a successful SuperAdmin-role lookup. -/
theorem saCount_eq_of_sr {db : DB} {sr : Role}
    (hsr : findRoleByName db "SuperAdmin" = some sr) :
    saCount db = (db.users.filter (fun u => u.role_id = sr.id)).length := by
  unfold saCount
  rw [hsr]

/-- saCount when no SuperAdmin role exists. -/
theorem saCount_eq_zero_of_none {db : DB}
    (hsr : findRoleByName db "SuperAdmin" = none) : saCount db = 0 := by
  unfold saCount
  rw [hsr]

/-- Shape of a successful create_user: the row is appended with a
validated, non-SuperAdmin role. -/
theorem create_user_ok_shape {db : DB} {user_in : UserCreate} {arole : Role}
    {db1 : DB} {u1 : User}
    (h : UserService.create_user db user_in arole = .ok (db1, u1)) :
    db1.roles = db.roles ∧ db1.next_role_id = db.next_role_id ∧
    db1.users = db.users ++ [u1] ∧ db1.next_user_id = db.next_user_id + 1 ∧
    u1.id = db.next_user_id ∧ u1.role_id = user_in.role_id ∧
    ∃ role, findRoleById db user_in.role_id = some role ∧
      role.name ≠ "SuperAdmin" := by
  simp only [UserService.create_user] at h
  split at h
  · exact absurd h (by simp)
  · split at h
    · exact absurd h (by simp)
    · rename_i role hrole
      split at h
      · exact absurd h (by simp)
      · rename_i hsa
        split at h
        · split at h
          · exact absurd h (by simp)
          · obtain ⟨hdb, hu1⟩ := Prod.ext_iff.mp (Except.ok.inj h)
            subst hdb; subst hu1
            exact ⟨rfl, rfl, rfl, rfl, rfl, rfl, role, hrole, hsa⟩
        · split at h
          · split at h
            · exact absurd h (by simp)
            · obtain ⟨hdb, hu1⟩ := Prod.ext_iff.mp (Except.ok.inj h)
              subst hdb; subst hu1
              exact ⟨rfl, rfl, rfl, rfl, rfl, rfl, role, hrole, hsa⟩
          · obtain ⟨hdb, hu1⟩ := Prod.ext_iff.mp (Except.ok.inj h)
            subst hdb; subst hu1
            exact ⟨rfl, rfl, rfl, rfl, rfl, rfl, role, hrole, hsa⟩

/-- Inverting a successful get_user. -/
theorem get_user_ok_inv {db : DB} {uid : Nat} {u : User}
    (h : UserService.get_user db uid = .ok u) :
    findUserById db uid = some u := by
  unfold UserService.get_user at h
  cases hf : findUserById db uid with
  | some v =>
    rw [hf] at h
    rw [Except.ok.inj h]
  | none =>
    rw [hf] at h
    exact absurd h (by simp)

/-- Shape of a successful assign_role: one row rewritten to a validated,
non-SuperAdmin role. -/
theorem assign_role_ok_shape {db : DB} {uid rid : Nat} {arole : Role}
    {db1 : DB} {u1 : User}
    (h : UserService.assign_role db uid rid arole = .ok (db1, u1)) :
    ∃ u0 role, findUserById db uid = some u0 ∧
      findRoleById db rid = some role ∧ role.name ≠ "SuperAdmin" ∧
      u1 = { u0 with role_id := rid } ∧
      db1.roles = db.roles ∧ db1.next_role_id = db.next_role_id ∧
      db1.next_user_id = db.next_user_id ∧
      db1.users = db.users.map (fun x => if x.id = uid then u1 else x) := by
  simp only [UserService.assign_role] at h
  split at h
  · exact absurd h (by simp)
  · rename_i u0 hu0
    have hfind := get_user_ok_inv hu0
    split at h
    · exact absurd h (by simp)
    · rename_i role hrole
      split at h
      · exact absurd h (by simp)
      · rename_i hsa
        split at h
        · split at h
          · exact absurd h (by simp)
          · obtain ⟨hdb, hu1⟩ := Prod.ext_iff.mp (Except.ok.inj h)
            subst hdb; subst hu1
            exact ⟨u0, role, hfind, hrole, hsa, rfl, rfl, rfl, rfl, rfl⟩
        · split at h
          · split at h
            · exact absurd h (by simp)
            · obtain ⟨hdb, hu1⟩ := Prod.ext_iff.mp (Except.ok.inj h)
              subst hdb; subst hu1
              exact ⟨u0, role, hfind, hrole, hsa, rfl, rfl, rfl, rfl, rfl⟩
          · obtain ⟨hdb, hu1⟩ := Prod.ext_iff.mp (Except.ok.inj h)
            subst hdb; subst hu1
            exact ⟨u0, role, hfind, hrole, hsa, rfl, rfl, rfl, rfl, rfl⟩

/-- Shape of a successful delete_user: the row is filtered out. -/
theorem delete_user_ok_shape {db : DB} {uid : Nat} {drole : Role} {db1 : DB}
    (h : UserService.delete_user db uid drole = .ok db1) :
    db1.roles = db.roles ∧ db1.next_role_id = db.next_role_id ∧
    db1.next_user_id = db.next_user_id ∧
    db1.users = db.users.filter (fun x => x.id ≠ uid) := by
  simp only [UserService.delete_user] at h
  split at h
  · exact absurd h (by simp)
  · split at h
    · exact absurd h (by simp)
    · split at h
      · exact absurd h (by simp)
      · have hdb := (Except.ok.inj h).symm
        subst hdb
        exact ⟨rfl, rfl, rfl, rfl⟩

/-- The role_id step keeps the id and writes either nothing, a zero
role_id (Python falsiness), or a validated non-SuperAdmin role. -/
theorem update_role_step_ok_role {db : DB} {u u' : User} {rid? : Option Nat}
    {ar : Role} (h : UserService.update_user_role_step db u rid? ar = .ok u') :
    u'.id = u.id ∧
    (u'.role_id = u.role_id ∨ u'.role_id = 0 ∨
      ∃ role, findRoleById db u'.role_id = some role ∧
        role.name ≠ "SuperAdmin") := by
  cases rid? with
  | none =>
    simp only [UserService.update_user_role_step] at h
    obtain rfl := Except.ok.inj h
    exact ⟨rfl, .inl rfl⟩
  | some rid =>
    simp only [UserService.update_user_role_step] at h
    split at h
    · split at h
      · exact absurd h (by simp)
      · rename_i role hrole
        split at h
        · exact absurd h (by simp)
        · rename_i hsa
          split at h
          · split at h
            · exact absurd h (by simp)
            · obtain rfl := Except.ok.inj h
              exact ⟨rfl, .inr (.inr ⟨role, hrole, hsa⟩)⟩
          · split at h
            · split at h
              · exact absurd h (by simp)
              · obtain rfl := Except.ok.inj h
                exact ⟨rfl, .inr (.inr ⟨role, hrole, hsa⟩)⟩
            · obtain rfl := Except.ok.inj h
              exact ⟨rfl, .inr (.inr ⟨role, hrole, hsa⟩)⟩
    · rename_i h0
      obtain rfl := Except.ok.inj h
      exact ⟨rfl, .inr (.inl (not_not.mp h0))⟩

/-- Shape of a successful update_user: one row rewritten, id preserved,
and the role reference unchanged, zeroed, or validated non-SuperAdmin. -/
theorem update_user_ok_shape {db : DB} {uid : Nat} {user_in : UserUpdate}
    {arole : Role} {db1 : DB} {u1 : User}
    (h : UserService.update_user db uid user_in arole = .ok (db1, u1)) :
    ∃ u0, findUserById db uid = some u0 ∧
      db1.roles = db.roles ∧ db1.next_role_id = db.next_role_id ∧
      db1.next_user_id = db.next_user_id ∧
      db1.users = db.users.map (fun x => if x.id = uid then u1 else x) ∧
      u1.id = u0.id ∧
      (u1.role_id = u0.role_id ∨ u1.role_id = 0 ∨
        ∃ role, findRoleById db u1.role_id = some role ∧
          role.name ≠ "SuperAdmin") := by
  simp only [UserService.update_user] at h
  split at h
  · exact absurd h (by simp)
  · rename_i u0 hu0
    have hfind := get_user_ok_inv hu0
    split at h
    · exact absurd h (by simp)
    · split at h
      · exact absurd h (by simp)
      · split at h
        · exact absurd h (by simp)
        · rename_i u2 hmail
          split at h
          · exact absurd h (by simp)
          · rename_i u4 hstep
            obtain ⟨hdb, hu4⟩ := Prod.ext_iff.mp (Except.ok.inj h)
            subst hdb
            subst hu4
            have hu2 : u2.id = u0.id ∧ u2.role_id = u0.role_id := by
              cases hn : user_in.name with
              | none =>
                cases hm : user_in.email with
                | none =>
                  simp only [hn, hm] at hmail
                  obtain rfl := Except.ok.inj hmail
                  exact ⟨rfl, rfl⟩
                | some e =>
                  simp only [hn, hm] at hmail
                  split at hmail
                  · exact absurd hmail (by simp)
                  · obtain rfl := Except.ok.inj hmail
                    exact ⟨rfl, rfl⟩
              | some n =>
                cases hm : user_in.email with
                | none =>
                  simp only [hn, hm] at hmail
                  obtain rfl := Except.ok.inj hmail
                  exact ⟨rfl, rfl⟩
                | some e =>
                  simp only [hn, hm] at hmail
                  split at hmail
                  · exact absurd hmail (by simp)
                  · obtain rfl := Except.ok.inj hmail
                    exact ⟨rfl, rfl⟩
            have hu3 : ∀ u3 : User,
                (u3 = match user_in.password with
                  | some p => if p = "" then u2
                              else { u2 with hashed_password := hash_password p }
                  | none => u2) →
                u3.id = u0.id ∧ u3.role_id = u0.role_id := by
              intro u3 h3
              cases hp : user_in.password with
              | none =>
                simp only [hp] at h3
                subst h3
                exact hu2
              | some p =>
                simp only [hp] at h3
                by_cases hpe : p = ""
                · rw [if_pos hpe] at h3
                  subst h3
                  exact hu2
                · rw [if_neg hpe] at h3
                  subst h3
                  exact hu2
            obtain ⟨h3id, h3r⟩ := hu3 _ rfl
            obtain ⟨h4id, h4r⟩ := update_role_step_ok_role hstep
            refine ⟨u0, hfind, rfl, rfl, rfl, rfl, h4id.trans h3id, ?_⟩
            rcases h4r with h4 | h4 | h4
            · exact .inl (h4.trans h3r)
            · exact .inr (.inl h4)
            · exact .inr (.inr h4)

/-- A successful routed create ran the service with some actor role. -/
theorem router_create_ok {db : DB} {user_in : UserCreate} {cu : User}
    {db1 : DB} {u1 : User}
    (h : UsersRouter.create_user db user_in cu = .ok (db1, u1)) :
    ∃ arole, UserService.create_user db user_in arole = .ok (db1, u1) := by
  simp only [UsersRouter.create_user] at h
  split at h
  · exact absurd h (by simp)
  · split at h
    · rename_i arole ha
      exact ⟨arole, h⟩
    · exact absurd h (by simp)

/-- A successful routed update ran the service with some actor role. -/
theorem router_update_ok {db : DB} {uid : Nat} {user_in : UserUpdate}
    {cu : User} {db1 : DB} {u1 : User}
    (h : UsersRouter.update_user db uid user_in cu = .ok (db1, u1)) :
    ∃ arole, UserService.update_user db uid user_in arole = .ok (db1, u1) := by
  simp only [UsersRouter.update_user] at h
  split at h
  · exact absurd h (by simp)
  · split at h
    · exact absurd h (by simp)
    · split at h
      · rename_i arole ha
        exact ⟨arole, h⟩
      · exact absurd h (by simp)

/-- A successful routed role assignment ran the service with some actor
role. -/
theorem router_assign_ok {db : DB} {uid rid : Nat} {cu : User}
    {db1 : DB} {u1 : User}
    (h : UsersRouter.assign_role db uid rid cu = .ok (db1, u1)) :
    ∃ arole, UserService.assign_role db uid rid arole = .ok (db1, u1) := by
  simp only [UsersRouter.assign_role] at h
  split at h
  · exact absurd h (by simp)
  · split at h
    · rename_i arole ha
      exact ⟨arole, h⟩
    · exact absurd h (by simp)

/-- A successful routed delete ran the service with some actor role. -/
theorem router_delete_ok {db : DB} {uid : Nat} {cu : User} {db1 : DB}
    (h : UsersRouter.delete_user db uid cu = .ok db1) :
    ∃ arole, UserService.delete_user db uid arole = .ok db1 := by
  simp only [UsersRouter.delete_user] at h
  split at h
  · exact absurd h (by simp)
  · split at h
    · rename_i arole ha
      exact ⟨arole, h⟩
    · exact absurd h (by simp)

/-- Appending a user holding a validated non-SuperAdmin role preserves
well-formedness. -/
theorem wf_create {db db1 : DB} {u1 : User} {user_in : UserCreate}
    {arole : Role} (h : WfDB db)
    (hok : UserService.create_user db user_in arole = .ok (db1, u1)) :
    WfDB db1 := by
  obtain ⟨hroles, hnr, husers, hnu, hid, hrid, role, hrole, hsa⟩ :=
    create_user_ok_shape hok
  constructor
  · rw [hroles]; exact h.roles_nodup
  · rw [hroles]; exact h.roles_pos
  · rw [hroles, hnr]; exact h.roles_lt
  · rw [husers, List.map_append]
    refine List.Nodup.append h.users_nodup (List.nodup_singleton _) ?_
    intro a ha hb
    simp only [List.map_cons, List.map_nil, List.mem_singleton] at hb
    obtain ⟨x, hx, hxid⟩ := List.mem_map.mp ha
    have hlt := h.users_lt x hx
    omega
  · rw [husers, hnu]
    intro x hx
    rcases List.mem_append.mp hx with hx1 | hx1
    · have := h.users_lt x hx1; omega
    · simp only [List.mem_singleton] at hx1
      subst hx1
      omega
  · rw [husers, hnr]
    intro x hx
    rcases List.mem_append.mp hx with hx1 | hx1
    · exact h.users_role_lt x hx1
    · simp only [List.mem_singleton] at hx1
      subst hx1
      rw [hrid]
      obtain ⟨hm, hi⟩ := findRoleById_spec hrole
      have := h.roles_lt role hm
      omega
  · rw [hnr]; exact h.nrole_pos
  · cases hsr : findRoleByName db "SuperAdmin" with
    | none =>
      rw [saCount_eq_zero_of_none (by
        rw [findRoleByName_congr hroles]; exact hsr)]
      omega
    | some sr =>
      rw [saCount_eq_of_sr (by
        rw [findRoleByName_congr hroles]; exact hsr), husers,
        List.filter_append]
      have hne : u1.role_id ≠ sr.id := by
        rw [hrid]; exact not_sa_role_id h.roles_nodup hrole hsa hsr
      have hfil : List.filter (fun u => decide (u.role_id = sr.id)) [u1] = [] := by
        simp [hne]
      rw [hfil]
      have hle := h.sa_le
      rw [saCount_eq_of_sr hsr] at hle
      simpa using hle

/-- Rewriting one row, with its id preserved and its role reference
unchanged, zeroed, or validated non-SuperAdmin, preserves
well-formedness. -/
theorem wf_replace {db db1 : DB} {uid : Nat} {u0 u1 : User}
    (h : WfDB db)
    (hu0 : findUserById db uid = some u0)
    (hid : u1.id = u0.id)
    (hroles : db1.roles = db.roles)
    (hnr : db1.next_role_id = db.next_role_id)
    (hnu : db1.next_user_id = db.next_user_id)
    (husers : db1.users = db.users.map (fun x => if x.id = uid then u1 else x))
    (hrole : u1.role_id = u0.role_id ∨ u1.role_id = 0 ∨
      ∃ role, findRoleById db u1.role_id = some role ∧
        role.name ≠ "SuperAdmin") :
    WfDB db1 := by
  obtain ⟨hm0, hid0⟩ := findUserById_spec hu0
  have hmapid : db1.users.map User.id = db.users.map User.id := by
    rw [husers, List.map_map]
    apply List.map_congr_left
    intro x hx
    by_cases hxe : x.id = uid
    · simp only [Function.comp_apply, if_pos hxe]
      rw [hid, hid0, hxe]
    · simp only [Function.comp_apply, if_neg hxe]
  constructor
  · rw [hroles]; exact h.roles_nodup
  · rw [hroles]; exact h.roles_pos
  · rw [hroles, hnr]; exact h.roles_lt
  · rw [hmapid]; exact h.users_nodup
  · rw [husers, hnu]
    intro x hx
    obtain ⟨y, hy, hyx⟩ := List.mem_map.mp hx
    subst hyx
    by_cases hye : y.id = uid
    · simp only [if_pos hye]
      have := h.users_lt y hy
      omega
    · simp only [if_neg hye]
      exact h.users_lt y hy
  · rw [husers, hnr]
    intro x hx
    obtain ⟨y, hy, hyx⟩ := List.mem_map.mp hx
    subst hyx
    by_cases hye : y.id = uid
    · simp only [if_pos hye]
      rcases hrole with hr1 | hr1 | ⟨role, hr1, _⟩
      · rw [hr1]; exact h.users_role_lt u0 hm0
      · rw [hr1]; exact h.nrole_pos
      · obtain ⟨hm, hi⟩ := findRoleById_spec hr1
        have := h.roles_lt role hm
        omega
    · simp only [if_neg hye]
      exact h.users_role_lt y hy
  · rw [hnr]; exact h.nrole_pos
  · cases hsr : findRoleByName db "SuperAdmin" with
    | none =>
      rw [saCount_eq_zero_of_none (by
        rw [findRoleByName_congr hroles]; exact hsr)]
      omega
    | some sr =>
      rw [saCount_eq_of_sr (by
        rw [findRoleByName_congr hroles]; exact hsr), husers]
      have hcond : ∀ x ∈ db.users,
          (fun u => decide (u.role_id = sr.id))
              ((fun x => if x.id = uid then u1 else x) x) = true →
          (fun u => decide (u.role_id = sr.id)) x = true := by
        intro x hx hpx
        by_cases hxe : x.id = uid
        · have hxu0 : x = u0 := findUserById_unique h.users_nodup hu0 x hx hxe
          simp only [if_pos hxe] at hpx
          have hu1sr : u1.role_id = sr.id := of_decide_eq_true hpx
          rcases hrole with hr1 | hr1 | ⟨role, hr1, hrs⟩
          · subst hxu0
            simp only [decide_eq_true_eq]
            rw [← hr1, hu1sr]
          · obtain ⟨hm2, _⟩ := findRoleByName_spec hsr
            have := h.roles_pos sr hm2
            omega
          · exact absurd hu1sr (not_sa_role_id h.roles_nodup hr1 hrs hsr)
        · simp only [if_neg hxe] at hpx
          exact hpx
      have hmono := length_filter_map_le db.users
        (fun x => if x.id = uid then u1 else x)
        (fun u => decide (u.role_id = sr.id)) hcond
      have hle := h.sa_le
      rw [saCount_eq_of_sr hsr] at hle
      omega

/-- Dropping rows from the user table preserves well-formedness. -/
theorem wf_user_filter {db db1 : DB} {q : User → Bool} (h : WfDB db)
    (hroles : db1.roles = db.roles) (hnr : db1.next_role_id = db.next_role_id)
    (hnu : db1.next_user_id = db.next_user_id)
    (husers : db1.users = db.users.filter q) : WfDB db1 := by
  constructor
  · rw [hroles]; exact h.roles_nodup
  · rw [hroles]; exact h.roles_pos
  · rw [hroles, hnr]; exact h.roles_lt
  · rw [husers]
    exact List.Nodup.sublist (List.Sublist.map _ (List.filter_sublist _))
      h.users_nodup
  · rw [husers, hnu]
    intro x hx
    exact h.users_lt x (List.mem_of_mem_filter hx)
  · rw [husers, hnr]
    intro x hx
    exact h.users_role_lt x (List.mem_of_mem_filter hx)
  · rw [hnr]; exact h.nrole_pos
  · cases hsr : findRoleByName db "SuperAdmin" with
    | none =>
      rw [saCount_eq_zero_of_none (by
        rw [findRoleByName_congr hroles]; exact hsr)]
      omega
    | some sr =>
      rw [saCount_eq_of_sr (by
        rw [findRoleByName_congr hroles]; exact hsr), husers]
      have h1 := length_filter_filter_le db.users
        (fun u => decide (u.role_id = sr.id)) q
      have h2 := h.sa_le
      rw [saCount_eq_of_sr hsr] at h2
      omega

/-- The tail of the bootstrap (run after any force deletion) preserves
well-formedness, provided the SuperAdmin-role variable matches the store
and no user currently holds the role. -/
theorem wf_init_tail {db : DB} (d : SuperAdminCreate) (sr? : Option Role)
    (h : WfDB db)
    (hsome : ∀ sr, sr? = some sr → findRoleByName db "SuperAdmin" = some sr)
    (hnone : sr? = none → findRoleByName db "SuperAdmin" = none)
    (hcount : saCount db = 0) :
    WfDB (SuperAdminRouter.init_tail db d sr?).1 := by
  simp only [SuperAdminRouter.init_tail]
  split
  · cases sr? with
    | some sr =>
      have hsr := hsome sr rfl
      have hcnt := hcount
      rw [saCount_eq_of_sr hsr] at hcnt
      show WfDB { db with
        users := db.users ++ [⟨db.next_user_id, d.email, d.name,
          hash_password d.password, sr.id⟩],
        next_user_id := db.next_user_id + 1 }
      obtain ⟨hsrm, hsrn⟩ := findRoleByName_spec hsr
      have hsrlt := h.roles_lt sr hsrm
      constructor
      · exact h.roles_nodup
      · exact h.roles_pos
      · exact h.roles_lt
      · rw [List.map_append]
        refine List.Nodup.append h.users_nodup (List.nodup_singleton _) ?_
        intro a ha hb
        simp only [List.map_cons, List.map_nil, List.mem_singleton] at hb
        obtain ⟨x, hx, hxid⟩ := List.mem_map.mp ha
        have := h.users_lt x hx
        subst hb
        omega
      · intro x hx
        rcases List.mem_append.mp hx with hx1 | hx1
        · have := h.users_lt x hx1
          simp only
          omega
        · simp only [List.mem_singleton] at hx1
          subst hx1
          simp only
          omega
      · intro x hx
        rcases List.mem_append.mp hx with hx1 | hx1
        · exact h.users_role_lt x hx1
        · simp only [List.mem_singleton] at hx1
          subst hx1
          simpa using hsrlt
      · exact h.nrole_pos
      · have hsr2 : findRoleByName { db with
            users := db.users ++ [⟨db.next_user_id, d.email, d.name,
              hash_password d.password, sr.id⟩],
            next_user_id := db.next_user_id + 1 } "SuperAdmin" = some sr :=
          (findRoleByName_congr rfl "SuperAdmin").trans hsr
        rw [saCount_eq_of_sr hsr2]
        simp only [List.filter_append, List.length_append]
        have hone : (List.filter (fun u => decide (u.role_id = sr.id))
            [(⟨db.next_user_id, d.email, d.name,
              hash_password d.password, sr.id⟩ : User)]).length = 1 := by
          simp
        omega
    | none =>
      have hsr := hnone rfl
      show WfDB { db with
        roles := db.roles ++ [⟨db.next_role_id, "SuperAdmin",
          some "Super Administrator with full access"⟩],
        next_role_id := db.next_role_id + 1,
        users := db.users ++ [⟨db.next_user_id, d.email, d.name,
          hash_password d.password, db.next_role_id⟩],
        next_user_id := db.next_user_id + 1 }
      constructor
      · rw [List.map_append]
        refine List.Nodup.append h.roles_nodup (List.nodup_singleton _) ?_
        intro a ha hb
        simp only [List.map_cons, List.map_nil, List.mem_singleton] at hb
        obtain ⟨x, hx, hxid⟩ := List.mem_map.mp ha
        have := h.roles_lt x hx
        subst hb
        omega
      · intro r hr
        rcases List.mem_append.mp hr with hr1 | hr1
        · exact h.roles_pos r hr1
        · simp only [List.mem_singleton] at hr1
          subst hr1
          simpa using h.nrole_pos
      · intro r hr
        rcases List.mem_append.mp hr with hr1 | hr1
        · have := h.roles_lt r hr1
          simp only
          omega
        · simp only [List.mem_singleton] at hr1
          subst hr1
          simp only
          omega
      · rw [List.map_append]
        refine List.Nodup.append h.users_nodup (List.nodup_singleton _) ?_
        intro a ha hb
        simp only [List.map_cons, List.map_nil, List.mem_singleton] at hb
        obtain ⟨x, hx, hxid⟩ := List.mem_map.mp ha
        have := h.users_lt x hx
        subst hb
        omega
      · intro x hx
        rcases List.mem_append.mp hx with hx1 | hx1
        · have := h.users_lt x hx1
          simp only
          omega
        · simp only [List.mem_singleton] at hx1
          subst hx1
          simp only
          omega
      · intro x hx
        rcases List.mem_append.mp hx with hx1 | hx1
        · have := h.users_role_lt x hx1
          simp only
          omega
        · simp only [List.mem_singleton] at hx1
          subst hx1
          simp only
          omega
      · simp only
        omega
      · have hnew : findRoleByName { db with
            roles := db.roles ++ [⟨db.next_role_id, "SuperAdmin",
              some "Super Administrator with full access"⟩],
            next_role_id := db.next_role_id + 1,
            users := db.users ++ [⟨db.next_user_id, d.email, d.name,
              hash_password d.password, db.next_role_id⟩],
            next_user_id := db.next_user_id + 1 } "SuperAdmin" =
            some ⟨db.next_role_id, "SuperAdmin",
              some "Super Administrator with full access"⟩ := by
          unfold findRoleByName at hsr ⊢
          simp only [List.find?_append, hsr, Option.none_or]
          simp
        rw [saCount_eq_of_sr hnew]
        simp only [List.filter_append, List.length_append]
        have hold : (List.filter (fun u => decide (u.role_id =
            db.next_role_id)) db.users).length = 0 := by
          rw [List.length_eq_zero]
          rw [List.filter_eq_nil_iff]
          intro x hx
          have := h.users_role_lt x hx
          simp only [decide_eq_true_eq]
          omega
        have hone : (List.filter (fun u => decide (u.role_id =
            db.next_role_id))
            [(⟨db.next_user_id, d.email, d.name,
              hash_password d.password, db.next_role_id⟩ : User)]).length = 1 := by
          simp
        omega
  · exact h

/-- The bootstrap endpoint preserves well-formedness, including through
its partially committed failure states. -/
theorem wf_init {db : DB} (d : SuperAdminCreate) (h : WfDB db) :
    WfDB (SuperAdminRouter.init_super_admin db d).1 := by
  simp only [SuperAdminRouter.init_super_admin]
  split
  · rename_i sr hsr
    split
    · rename_i ex hex
      split
      · refine wf_init_tail d (some sr)
          (wf_user_filter h rfl rfl rfl rfl) ?_ (by intro hx; cases hx) ?_
        · intro sr2 hx
          obtain rfl := Option.some.inj hx
          exact (findRoleByName_congr rfl "SuperAdmin").trans hsr
        · have hsr1 : findRoleByName { db with
              users := db.users.filter (fun u => u.id ≠ ex.id) }
              "SuperAdmin" = some sr :=
            (findRoleByName_congr rfl "SuperAdmin").trans hsr
          rw [saCount_eq_of_sr hsr1]
          show ((db.users.filter (fun u => u.id ≠ ex.id)).filter
            (fun u => u.role_id = sr.id)).length = 0
          have hexm := List.mem_of_find?_eq_some hex
          have hexp := List.find?_some hex
          have hlt := length_filter_filter_lt db.users
            (fun u => decide (u.role_id = sr.id))
            (fun u => decide (u.id ≠ ex.id)) ex hexm hexp (by simp)
          have hle := h.sa_le
          rw [saCount_eq_of_sr hsr] at hle
          omega
      · exact h
    · rename_i hex
      refine wf_init_tail d (some sr) h ?_ (by intro hx; cases hx) ?_
      · intro sr2 hx
        obtain rfl := Option.some.inj hx
        exact hsr
      · rw [saCount_eq_of_sr hsr, List.length_eq_zero,
          List.filter_eq_nil_iff]
        intro x hx
        have := List.find?_eq_none.mp hex x hx
        simpa using this
  · rename_i hsr
    exact wf_init_tail d none h (by intro sr2 hx; cases hx) (fun _ => hsr)
      (saCount_eq_zero_of_none hsr)

/-- Every single operation preserves well-formedness. -/
theorem wf_applyOp {db : DB} (op : Op) (h : WfDB db) :
    WfDB (applyOp db op) := by
  cases op with
  | bootstrap d =>
    exact wf_init d h
  | createUser user_in aid =>
    simp only [applyOp]
    split
    · exact h
    · split
      · rename_i db1 u1 hok
        obtain ⟨arole, hs⟩ := router_create_ok hok
        exact wf_create h hs
      · exact h
  | updateUser uid user_in aid =>
    simp only [applyOp]
    split
    · exact h
    · split
      · rename_i db1 u1 hok
        obtain ⟨arole, hs⟩ := router_update_ok hok
        obtain ⟨u0, hfind, hroles, hnr, hnu, husers, hid, hrole⟩ :=
          update_user_ok_shape hs
        exact wf_replace h hfind hid hroles hnr hnu husers hrole
      · exact h
  | assignRole uid rid aid =>
    simp only [applyOp]
    split
    · exact h
    · split
      · rename_i db1 u1 hok
        obtain ⟨arole, hs⟩ := router_assign_ok hok
        obtain ⟨u0, role, hfind, hrole, hsa, hu1, hroles, hnr, hnu, husers⟩ :=
          assign_role_ok_shape hs
        refine wf_replace h hfind ?_ hroles hnr hnu husers ?_
        · rw [hu1]
        · refine .inr (.inr ⟨role, ?_, hsa⟩)
          rw [hu1]
          exact hrole
      · exact h
  | deleteUser uid aid =>
    simp only [applyOp]
    split
    · exact h
    · split
      · rename_i db1 hok
        obtain ⟨arole, hs⟩ := router_delete_ok hok
        obtain ⟨hroles, hnr, hnu, husers⟩ := delete_user_ok_shape hs
        exact wf_user_filter h hroles hnr hnu husers
      · exact h

/-- The empty store is well-formed. -/
theorem wf_emptyDB : WfDB emptyDB := by
  constructor <;> simp [emptyDB, saCount, findRoleByName]

/-- Well-formedness along any request sequence. -/
theorem wf_foldl (ops : List Op) (db : DB) (h : WfDB db) :
    WfDB (ops.foldl applyOp db) := by
  induction ops generalizing db with
  | nil => exact h
  | cons o t ih => exact ih _ (wf_applyOp o h)

/-- C6: in every state reachable from the empty store by any sequence of
the exposed operations — bootstrap initialize, createUser, updateUser,
assignRole, deleteUser — either zero or exactly one user row holds the
SuperAdmin role; in particular every single operation preserves the
invariant. -/
theorem c6_superadmin_uniqueness (ops : List Op) :
    saCount (runOps ops) = 0 ∨ saCount (runOps ops) = 1 := by
  have h := (wf_foldl ops emptyDB wf_emptyDB).sa_le
  unfold runOps
  omega
